import Mathlib

/-
Shallow embedding of pycollada's collada/animation.py.

The document layer (lxml nodes) is modelled by per-tag node structures:
node.get('attr') becomes an Option String field, and
node.findall(collada.tag(t)) becomes the list field holding the children
with tag t, in document order.  Python's raise/except over DaeError
becomes Except DaeError; the shared, mutated-in-place scope dictionary
becomes an association list threaded explicitly through the loaders
(every function that may extend the dict also returns it).  The lenient
("continuing") error policy is modelled: collada.handleError swallows
the error, so a failed sampler / channel / child animation is skipped.
-/

set_option autoImplicit false

namespace PyCollada

/-- Python truthiness test `not s` for an optional string attribute:
true when the attribute is absent (None) or the empty string. -/
def blank : Option String → Bool
  | none => true
  | some s => s.isEmpty

/-- `o or ''` in Python: the attribute's value, defaulting to "". -/
def orEmpty (o : Option String) : String := o.getD ""

/-- A Python dict with String keys, as an insertion-ordered association
list.  Mirrors dict semantics: lookup finds the unique binding, insert
overwrites an existing binding in place (keeping its position) or
appends a new one, values lists the bound values in insertion order. -/
abbrev Scope (α : Type) := List (String × α)

/-- Dict lookup: `d[k]` / `k in d` (first binding for the key). -/
def Scope.lookup {α : Type} : Scope α → String → Option α
  | [], _ => none
  | (k', v) :: rest, k => if k' = k then some v else Scope.lookup rest k

/-- Dict assignment `d[k] = v`: overwrite in place, else append. -/
def Scope.insert {α : Type} : Scope α → String → α → Scope α
  | [], k, v => [(k, v)]
  | (k', v') :: rest, k, v =>
      if k' = k then (k', v) :: rest else (k', v') :: Scope.insert rest k v

/-- `list(d.values())`. -/
def Scope.values {α : Type} (σ : Scope α) : List α := σ.map Prod.snd

/-- Number of bindings a scope holds for a key (a dict holds at most one;
association lists in general may hold more). -/
def Scope.countKey {α : Type} (σ : Scope α) (k : String) : Nat :=
  (σ.filter (fun p => p.1 = k)).length

/-- The DaeError exceptions raised by animation.py, split by raise site:
missingAttribute for the "missing semantic or source" / "missing source
or target" messages, unresolvedReference for the "not found" messages,
brokenSource for errors propagating out of the external ValueSource
loader (collada.source.Source.load). -/
inductive DaeError where
  | missingAttribute
  | unresolvedReference
  | brokenSource
deriving DecidableEq, Repr

/-- Modelled from the spec: a ValueSource is an external collaborator,
"an identified array-backed data source, addressable by identifier
within a scope"; its array payload is opaque here. -/
structure ValueSource where
  id : String
  data : Nat
deriving DecidableEq, Repr

/-- A <source> document node, as consumed by the external ValueSource
loader.  The broken flag models a node the external loader rejects. -/
structure SourceNode where
  id : String
  data : Nat
  broken : Bool
deriving DecidableEq, Repr

/-- Modelled from the spec: the external ValueSource loader
(collada.source.Source.load, not part of this module), which either
produces the identified data source or fails with a DaeError ("Errors
raised while loading a ValueSource", spec section 7). -/
def Source.load (node : SourceNode) : Except DaeError ValueSource :=
  if node.broken then .error .brokenSource else .ok ⟨node.id, node.data⟩

/-- An <input> document node: its semantic and source attributes. -/
structure InputNode where
  semantic : Option String
  source : Option String
deriving DecidableEq, Repr

/-- A <sampler> document node: its id attribute and <input> children in
document order. -/
structure SamplerNode where
  id : Option String
  inputNodes : List InputNode
deriving DecidableEq, Repr

/-- A <channel> document node: its source and target attributes. -/
structure ChannelNode where
  source : Option String
  target : Option String
deriving DecidableEq, Repr

/-- A <animation> document node: id and name attributes and its
<source>, <sampler>, <channel> and nested <animation> children, each
tag's children in document order. -/
inductive AnimNode where
  | mk (id : Option String) (name : Option String)
       (sources : List SourceNode) (samplerNodes : List SamplerNode)
       (channelNodes : List ChannelNode) (children : List AnimNode)

def AnimNode.id : AnimNode → Option String
  | .mk i _ _ _ _ _ => i

def AnimNode.name : AnimNode → Option String
  | .mk _ n _ _ _ _ => n

def AnimNode.sources : AnimNode → List SourceNode
  | .mk _ _ s _ _ _ => s

def AnimNode.samplerNodes : AnimNode → List SamplerNode
  | .mk _ _ _ s _ _ => s

def AnimNode.channelNodes : AnimNode → List ChannelNode
  | .mk _ _ _ _ c _ => c

def AnimNode.childNodes : AnimNode → List AnimNode
  | .mk _ _ _ _ _ c => c

/-- Class Input: holds a semantic role bound to one ValueSource. -/
structure Input where
  semantic : String
  source : ValueSource
deriving DecidableEq, Repr

/-- Input.load: raises DaeError when semantic or source is missing or
empty (Python `not semantic or not source`), raises DaeError when the
sigil-stripped reference `source[1:]` is not a key of localscope, and
otherwise returns Input(semantic, localscope[source[1:]]). -/
def Input.load (localscope : Scope ValueSource) (node : InputNode) :
    Except DaeError Input :=
  if blank node.semantic || blank node.source then
    .error .missingAttribute
  else
    match Scope.lookup localscope ((orEmpty node.source).drop 1) with
    | none => .error .unresolvedReference
    | some vs => .ok ⟨orEmpty node.semantic, vs⟩

/-- Class Sampler: an id and the ordered Input list. -/
structure Sampler where
  id : String
  inputs : List Input
deriving DecidableEq, Repr

/-- SEMANTIC.INPUT / the Sampler.input property:
`next(x for x in self.inputs if x.semantic == SEMANTIC.INPUT)`.
Python's next raises StopIteration when nothing matches; that
access-time fault is modelled by Option. -/
def Sampler.input (s : Sampler) : Option Input :=
  s.inputs.find? (fun x => x.semantic == "INPUT")

/-- The Sampler.output property (first Input with semantic OUTPUT). -/
def Sampler.output (s : Sampler) : Option Input :=
  s.inputs.find? (fun x => x.semantic == "OUTPUT")

/-- The Sampler.interpolation property (first Input with semantic
INTERPOLATION). -/
def Sampler.interpolation (s : Sampler) : Option Input :=
  s.inputs.find? (fun x => x.semantic == "INTERPOLATION")

/-- The for-loop of Sampler.load: resolve each <input> child in order;
any Input.load failure propagates immediately, aborting the list. -/
def loadInputs (localscope : Scope ValueSource) :
    List InputNode → Except DaeError (List Input)
  | [] => .ok []
  | n :: rest =>
    match Input.load localscope n with
    | .error e => .error e
    | .ok i =>
      match loadInputs localscope rest with
      | .error e => .error e
      | .ok is => .ok (i :: is)

/-- Sampler.load: `id = node.get('id') or ''`, then resolve every
<input> child against localscope; the first Input failure propagates
(no partially built Sampler is returned). -/
def Sampler.load (localscope : Scope ValueSource) (node : SamplerNode) :
    Except DaeError Sampler :=
  match loadInputs localscope node.inputNodes with
  | .error e => .error e
  | .ok inputs => .ok ⟨orEmpty node.id, inputs⟩

/-- Class Channel: a Sampler reference and the verbatim target path. -/
structure Channel where
  source : Sampler
  target : String
deriving DecidableEq, Repr

/-- Channel.load: raises DaeError when source or target is missing or
empty, raises DaeError when `source[1:]` is not a key of the samplers
scope, else returns Channel(localscope[source[1:]], target). -/
def Channel.load (localscope : Scope Sampler) (node : ChannelNode) :
    Except DaeError Channel :=
  if blank node.source || blank node.target then
    .error .missingAttribute
  else
    match Scope.lookup localscope ((orEmpty node.source).drop 1) with
    | none => .error .unresolvedReference
    | some s => .ok ⟨s, orEmpty node.target⟩

/-- Class Animation: the loaded node.  sourceById snapshots the shared
scope dict as it stands when the Animation is constructed (in Python it
stays an alias of the still-shared dict). -/
inductive Animation where
  | mk (id : String) (name : String) (sourceById : Scope ValueSource)
       (samplers : List Sampler) (channels : List Channel)
       (children : List Animation)

def Animation.id : Animation → String
  | .mk i _ _ _ _ _ => i

def Animation.name : Animation → String
  | .mk _ n _ _ _ _ => n

def Animation.sourceById : Animation → Scope ValueSource
  | .mk _ _ s _ _ _ => s

def Animation.samplers : Animation → List Sampler
  | .mk _ _ _ s _ _ => s

def Animation.channels : Animation → List Channel
  | .mk _ _ _ _ c _ => c

def Animation.children : Animation → List Animation
  | .mk _ _ _ _ _ c => c

/-- The <source> loop of Animation.load: `sourcebyid = localscope`, then
for each source node, load it externally and do
`sourcebyid[ch.id] = ch`.  A loader failure is NOT caught here; it
propagates out of Animation.load, leaving the bindings made so far in
the shared dict.  Returns the error, if any, with the scope as mutated
up to that point. -/
def loadSources (localscope : Scope ValueSource) :
    List SourceNode → Option DaeError × Scope ValueSource
  | [] => (none, localscope)
  | n :: rest =>
    match Source.load n with
    | .error e => (some e, localscope)
    | .ok ch => loadSources (Scope.insert localscope ch.id ch) rest

/-- The <sampler> loop of Animation.load under the continuing error
policy: each Sampler.load failure is handed to collada.handleError and
the sampler skipped; successes go into the samplers dict keyed by id
(`samplers[sampler.id] = sampler`). -/
def loadSamplersAux (localscope : Scope ValueSource)
    (samplers : Scope Sampler) : List SamplerNode → Scope Sampler
  | [] => samplers
  | n :: rest =>
    match Sampler.load localscope n with
    | .ok s => loadSamplersAux localscope (Scope.insert samplers s.id s) rest
    | .error _ => loadSamplersAux localscope samplers rest

/-- The <sampler> loop started from the empty dict `samplers = {}`. -/
def loadSamplers (localscope : Scope ValueSource)
    (nodes : List SamplerNode) : Scope Sampler :=
  loadSamplersAux localscope [] nodes

/-- The <channel> loop of Animation.load under the continuing error
policy: each Channel.load failure is handed to collada.handleError and
the channel skipped; successes are appended in order. -/
def loadChannels (samplers : Scope Sampler) (nodes : List ChannelNode) :
    List Channel :=
  nodes.filterMap (fun n => (Channel.load samplers n).toOption)

mutual

/-- Animation.load: defaults id and name to "", materializes this
node's <source> children into the inherited scope (in place), loads
samplers against that scope, channels against the samplers dict, then
recurses into nested <animation> children passing the same scope
forward, and constructs the Animation.  The only uncaught failure is a
ValueSource loader error from the <source> loop.  The scope, as mutated
by this subtree, is returned alongside. -/
def Animation.load (localscope : Scope ValueSource) (node : AnimNode) :
    Except DaeError Animation × Scope ValueSource :=
  match node with
  | .mk nid nname srcs smps chns childs =>
    match (loadSources localscope srcs).1 with
    | some e => (.error e, (loadSources localscope srcs).2)
    | none =>
      let sourcebyid := (loadSources localscope srcs).2
      let samplers := loadSamplers sourcebyid smps
      let channels := loadChannels samplers chns
      let cres := Animation.loadChildren sourcebyid childs
      (.ok (.mk (orEmpty nid) (orEmpty nname) cres.2
              (Scope.values samplers) channels cres.1), cres.2)

/-- The nested <animation> loop of Animation.load under the continuing
error policy: each failed child is handed to collada.handleError and
skipped (its scope mutations up to the failure persist, since the dict
is shared); successful children are kept in order. -/
def Animation.loadChildren (localscope : Scope ValueSource) :
    List AnimNode → List Animation × Scope ValueSource
  | [] => ([], localscope)
  | c :: rest =>
    match (Animation.load localscope c).1 with
    | .ok child =>
      (child :: (Animation.loadChildren (Animation.load localscope c).2 rest).1,
       (Animation.loadChildren (Animation.load localscope c).2 rest).2)
    | .error _ => Animation.loadChildren (Animation.load localscope c).2 rest

end

/-- First-match characterization of a role scan: when the result is
none, no Input of the list has the role; when it is some i, i has the
role and everything before it in the list does not. -/
def firstWithRole (role : String) (l : List Input) : Option Input → Prop
  | none => ∀ j ∈ l, j.semantic ≠ role
  | some i => i.semantic = role ∧
      ∃ pre post, l = pre ++ i :: post ∧ ∀ j ∈ pre, j.semantic ≠ role

/-! Shared lemmas about scopes (Python dict behaviour). -/

theorem Scope.lookup_insert {α : Type} (σ : Scope α) (k k' : String) (v : α) :
    Scope.lookup (Scope.insert σ k v) k' =
      if k' = k then some v else Scope.lookup σ k' := by
  induction σ with
  | nil =>
    by_cases h : k' = k
    · simp [Scope.insert, Scope.lookup, h]
    · simp [Scope.insert, Scope.lookup, h, Ne.symm h]
  | cons p rest ih =>
    obtain ⟨k₀, v₀⟩ := p
    by_cases h₀ : k₀ = k
    · subst h₀
      by_cases h₁ : k' = k₀
      · simp [Scope.insert, Scope.lookup, h₁]
      · simp [Scope.insert, Scope.lookup, h₁, Ne.symm h₁]
    · by_cases h₁ : k' = k₀
      · subst h₁
        simp [Scope.insert, Scope.lookup, h₀]
      · by_cases h₂ : k' = k
        · subst h₂
          simp [Scope.insert, Scope.lookup, h₀, Ne.symm h₁, ih]
        · simp [Scope.insert, Scope.lookup, h₀, h₁, Ne.symm h₁, h₂, ih]

theorem Scope.lookup_insert_isSome {α : Type} (σ : Scope α) (k k' : String)
    (v : α) (h : (Scope.lookup σ k').isSome) :
    (Scope.lookup (Scope.insert σ k v) k').isSome := by
  rw [Scope.lookup_insert]
  by_cases hk : k' = k <;> simp [hk, h]

theorem Scope.countKey_insert_self {α : Type} (σ : Scope α) (k : String) (v : α) :
    Scope.countKey (Scope.insert σ k v) k = max 1 (Scope.countKey σ k) := by
  induction σ with
  | nil => simp [Scope.insert, Scope.countKey]
  | cons p rest ih =>
    obtain ⟨k₀, v₀⟩ := p
    by_cases h₀ : k₀ = k
    · subst h₀
      simp [Scope.insert, Scope.countKey]
    · rw [show Scope.insert ((k₀, v₀) :: rest) k v = (k₀, v₀) :: Scope.insert rest k v
        from by simp [Scope.insert, h₀]]
      rw [show Scope.countKey ((k₀, v₀) :: Scope.insert rest k v) k
            = Scope.countKey (Scope.insert rest k v) k
          from by simp [Scope.countKey, h₀]]
      rw [show Scope.countKey ((k₀, v₀) :: rest) k = Scope.countKey rest k
          from by simp [Scope.countKey, h₀]]
      exact ih

theorem find?_firstWithRole (role : String) (l : List Input) :
    firstWithRole role l (l.find? (fun x => x.semantic == role)) := by
  induction l with
  | nil => intro j hj; simp at hj
  | cons a rest ih =>
    by_cases ha : a.semantic = role
    · rw [List.find?_cons_of_pos _ (by simp [ha])]
      exact ⟨ha, [], rest, rfl, by simp⟩
    · rw [List.find?_cons_of_neg _ (by simp [ha])]
      cases hr : rest.find? (fun x => x.semantic == role) with
      | none =>
        rw [hr] at ih
        intro j hj
        rcases List.mem_cons.mp hj with h | h
        · exact h ▸ ha
        · exact ih j h
      | some i =>
        rw [hr] at ih
        obtain ⟨hi, pre, post, hsplit, hpre⟩ := ih
        refine ⟨hi, a :: pre, post, by simp [hsplit], ?_⟩
        intro j hj
        rcases List.mem_cons.mp hj with h | h
        · exact h ▸ ha
        · exact hpre j h

theorem loadSamplersAux_append (σ : Scope ValueSource) (acc : Scope Sampler)
    (l1 l2 : List SamplerNode) :
    loadSamplersAux σ acc (l1 ++ l2)
      = loadSamplersAux σ (loadSamplersAux σ acc l1) l2 := by
  induction l1 generalizing acc with
  | nil => simp [loadSamplersAux]
  | cons n rest ih =>
    cases hn : Sampler.load σ n with
    | ok s => simp [loadSamplersAux, hn, ih]
    | error e => simp [loadSamplersAux, hn, ih]

theorem loadSamplersAux_lookup_isSome (σ : Scope ValueSource)
    (acc : Scope Sampler) (ns : List SamplerNode) (k : String)
    (h : (Scope.lookup acc k).isSome) :
    (Scope.lookup (loadSamplersAux σ acc ns) k).isSome := by
  induction ns generalizing acc with
  | nil => exact h
  | cons n rest ih =>
    cases hn : Sampler.load σ n with
    | ok s =>
      simp only [loadSamplersAux, hn]
      exact ih _ (Scope.lookup_insert_isSome acc s.id k s h)
    | error e =>
      simp only [loadSamplersAux, hn]
      exact ih _ h

theorem loadInputs_append_error (σ : Scope ValueSource) (pre : List InputNode)
    (b : InputNode) (post : List InputNode) (e : DaeError)
    (hok : ∀ a ∈ pre, ∃ i, Input.load σ a = .ok i)
    (hb : Input.load σ b = .error e) :
    loadInputs σ (pre ++ b :: post) = .error e := by
  induction pre with
  | nil => simp [loadInputs, hb]
  | cons a rest ih =>
    obtain ⟨i, hi⟩ := hok a (by simp)
    have hrest := ih (fun x hx => hok x (by simp [hx]))
    simp [loadInputs, hi, hrest]

theorem loadInputs_ok_iff (σ : Scope ValueSource) (l : List InputNode) :
    (∃ is, loadInputs σ l = .ok is) ↔ ∀ n ∈ l, ∃ i, Input.load σ n = .ok i := by
  induction l with
  | nil => simp [loadInputs]
  | cons a rest ih =>
    constructor
    · rintro ⟨is, his⟩
      cases ha : Input.load σ a with
      | error e => simp [loadInputs, ha] at his
      | ok i =>
        cases hr : loadInputs σ rest with
        | error e => simp [loadInputs, ha, hr] at his
        | ok is' =>
          intro n hn
          rcases List.mem_cons.mp hn with h | h
          · exact ⟨i, h ▸ ha⟩
          · exact (ih.mp ⟨is', hr⟩) n h
    · intro h
      obtain ⟨i, hi⟩ := h a (by simp)
      obtain ⟨is, his⟩ := ih.mpr (fun n hn => h n (by simp [hn]))
      exact ⟨i :: is, by simp [loadInputs, hi, his]⟩

theorem Scope.lookup_mem_values {α : Type} (σ : Scope α) (k : String) (v : α)
    (h : Scope.lookup σ k = some v) : v ∈ Scope.values σ := by
  induction σ with
  | nil => simp [Scope.lookup] at h
  | cons p rest ih =>
    obtain ⟨k₀, v₀⟩ := p
    by_cases h₀ : k₀ = k
    · simp [Scope.lookup, h₀] at h
      simp [Scope.values, h]
    · simp [Scope.lookup, h₀] at h
      simp [Scope.values] at ih ⊢
      exact Or.inr (ih h)

/-! The claims. -/

/-- C3: Input.load fails with the missing-attribute error exactly when
the semantic or the source attribute is absent or empty, fails with the
unresolved-reference error exactly when the source reference with its
first character stripped is not a key of the supplied scope, and
otherwise succeeds with the returned Input's source field equal to the
ValueSource stored in the scope under that key. -/
theorem input_load_spec (σ : Scope ValueSource) (node : InputNode) :
    (blank node.semantic = true ∨ blank node.source = true →
      Input.load σ node = .error .missingAttribute) ∧
    (blank node.semantic = false → blank node.source = false →
      Scope.lookup σ ((orEmpty node.source).drop 1) = none →
      Input.load σ node = .error .unresolvedReference) ∧
    (∀ vs : ValueSource, blank node.semantic = false → blank node.source = false →
      Scope.lookup σ ((orEmpty node.source).drop 1) = some vs →
      Input.load σ node = .ok ⟨orEmpty node.semantic, vs⟩) := by
  refine ⟨fun h => ?_, fun h1 h2 h3 => ?_, fun vs h1 h2 h3 => ?_⟩
  · unfold Input.load
    rcases h with h | h <;> simp [h]
  · unfold Input.load
    simp [h1, h2, h3]
  · unfold Input.load
    simp [h1, h2, h3]

/-- Witness for C3: a concrete successful resolution through scope key
"x". -/
theorem input_load_spec_witness :
    Input.load [("x", ⟨"x", 7⟩)] ⟨some "INPUT", some "#x"⟩
      = .ok ⟨"INPUT", ⟨"x", 7⟩⟩ :=
  (input_load_spec [("x", ⟨"x", 7⟩)] ⟨some "INPUT", some "#x"⟩).2.2
    ⟨"x", 7⟩ rfl rfl rfl

/-- C4: Sampler loading is atomic.  If the input nodes split as
pre ++ b :: post with every node of pre resolving and b failing, the
whole Sampler.load fails with b's error (document order, first failure
propagates, partial results discarded); and Sampler.load succeeds
exactly when every input node resolves. -/
theorem sampler_load_atomic (σ : Scope ValueSource) (node : SamplerNode) :
    (∀ (pre : List InputNode) (b : InputNode) (post : List InputNode) (e : DaeError),
      node.inputNodes = pre ++ b :: post →
      (∀ a ∈ pre, ∃ i, Input.load σ a = .ok i) →
      Input.load σ b = .error e →
      Sampler.load σ node = .error e) ∧
    ((∃ s, Sampler.load σ node = .ok s) ↔
      ∀ n ∈ node.inputNodes, ∃ i, Input.load σ n = .ok i) := by
  constructor
  · intro pre b post e hsplit hok hb
    unfold Sampler.load
    rw [hsplit, loadInputs_append_error σ pre b post e hok hb]
  · constructor
    · rintro ⟨s, hs⟩
      refine (loadInputs_ok_iff σ node.inputNodes).mp ?_
      cases hl : loadInputs σ node.inputNodes with
      | error e => simp [Sampler.load, hl] at hs
      | ok is => exact ⟨is, rfl⟩
    · intro h
      obtain ⟨is, his⟩ := (loadInputs_ok_iff σ node.inputNodes).mpr h
      exact ⟨⟨orEmpty node.id, is⟩, by unfold Sampler.load; rw [his]⟩

/-- Witness for C4: a sampler whose first input resolves and whose
second input is missing its semantic attribute fails as a whole with
the missing-attribute error. -/
theorem sampler_load_atomic_witness :
    Sampler.load [("x", ⟨"x", 0⟩)]
      ⟨some "s1", [⟨some "INPUT", some "#x"⟩, ⟨none, some "#x"⟩]⟩
      = .error .missingAttribute := by
  refine (sampler_load_atomic [("x", ⟨"x", 0⟩)]
      ⟨some "s1", [⟨some "INPUT", some "#x"⟩, ⟨none, some "#x"⟩]⟩).1
      [⟨some "INPUT", some "#x"⟩] ⟨none, some "#x"⟩ [] .missingAttribute rfl ?_ rfl
  intro a ha
  simp only [List.mem_singleton] at ha
  exact ⟨⟨"INPUT", ⟨"x", 0⟩⟩, by rw [ha]; rfl⟩

/-- C5: Channel.load fails with the missing-attribute error when the
source or the target attribute is absent or empty, fails with the
unresolved-reference error when the source reference with its first
character stripped is not a key of the samplers scope, and otherwise
succeeds with the target string stored verbatim and the channel's
source bound to the referenced Sampler. -/
theorem channel_load_spec (sam : Scope Sampler) (node : ChannelNode) :
    (blank node.source = true ∨ blank node.target = true →
      Channel.load sam node = .error .missingAttribute) ∧
    (blank node.source = false → blank node.target = false →
      Scope.lookup sam ((orEmpty node.source).drop 1) = none →
      Channel.load sam node = .error .unresolvedReference) ∧
    (∀ s : Sampler, blank node.source = false → blank node.target = false →
      Scope.lookup sam ((orEmpty node.source).drop 1) = some s →
      Channel.load sam node = .ok ⟨s, orEmpty node.target⟩) := by
  refine ⟨fun h => ?_, fun h1 h2 h3 => ?_, fun s h1 h2 h3 => ?_⟩
  · unfold Channel.load
    rcases h with h | h <;> simp [h]
  · unfold Channel.load
    simp [h1, h2, h3]
  · unfold Channel.load
    simp [h1, h2, h3]

/-- Witness for C5: a concrete channel resolving sampler "sam" with a
verbatim target path. -/
theorem channel_load_spec_witness :
    Channel.load [("sam", ⟨"sam", []⟩)] ⟨some "#sam", some "node/t.X"⟩
      = .ok ⟨⟨"sam", []⟩, "node/t.X"⟩ :=
  (channel_load_spec [("sam", ⟨"sam", []⟩)] ⟨some "#sam", some "node/t.X"⟩).2.2
    ⟨"sam", []⟩ rfl rfl rfl

/-- C6 counterexample: the inherited scope binds "X", written by an
ancestor (the first writer); loading a descendant node that redeclares
"X" silently rebinds "X" in the shared scope to the new ValueSource,
with no error — the LAST writer wins, not the first, even across the
ancestor chain. -/
theorem scope_overwrites_ancestor_binding :
    (loadSources [("X", ⟨"X", 1⟩)] [⟨"X", 2, false⟩]).1 = none ∧
    Scope.lookup (loadSources [("X", ⟨"X", 1⟩)] [⟨"X", 2, false⟩]).2 "X"
      = some ⟨"X", 2⟩ :=
  ⟨rfl, rfl⟩

/-- C6 amended: scope extension is unconditional last-writer-wins:
loading a source declaration silently rebinds its identifier to the
newly loaded ValueSource even when the identifier is already bound
(whether by an ancestor or by an earlier sibling declaration), raises
no error, and leaves every other identifier's binding untouched. -/
theorem scope_extension_last_writer_wins (σ : Scope ValueSource)
    (s : SourceNode) (k : String) (h : s.broken = false) :
    (loadSources σ [s]).1 = none ∧
    Scope.lookup (loadSources σ [s]).2 k
      = if k = s.id then some ⟨s.id, s.data⟩ else Scope.lookup σ k := by
  have hload : loadSources σ [s]
      = (none, Scope.insert σ s.id ⟨s.id, s.data⟩) := by
    simp [loadSources, Source.load, h]
  rw [hload]
  exact ⟨rfl, Scope.lookup_insert σ s.id k ⟨s.id, s.data⟩⟩

/-- Witness for the amended C6: redeclaring "X" over an inherited
binding rebinds it to the new data, without error. -/
theorem scope_extension_last_writer_wins_witness :
    (loadSources [("X", ⟨"X", 1⟩)] [⟨"X", 2, false⟩]).1 = none ∧
    Scope.lookup (loadSources [("X", ⟨"X", 1⟩)] [⟨"X", 2, false⟩]).2 "Y"
      = if "Y" = ("X" : String) then some ⟨"X", 2⟩
        else Scope.lookup [("X", ⟨"X", 1⟩)] "Y" :=
  scope_extension_last_writer_wins [("X", ⟨"X", 1⟩)] ⟨"X", 2, false⟩ "Y" rfl

/-- C7: two source declarations under the same Animation node sharing
an identifier leave exactly one scope entry for that identifier, bound
to the second declaration's data, and no error is raised.  (The
hypothesis that the incoming scope holds at most one binding for the
identifier is an invariant of every scope the loader builds, since
Scope.insert never duplicates a key.) -/
theorem duplicate_source_last_write_wins (σ : Scope ValueSource)
    (s1 s2 : SourceNode) (hid : s1.id = s2.id)
    (h1 : s1.broken = false) (h2 : s2.broken = false)
    (hσ : Scope.countKey σ s1.id ≤ 1) :
    (loadSources σ [s1, s2]).1 = none ∧
    Scope.lookup (loadSources σ [s1, s2]).2 s1.id = some ⟨s2.id, s2.data⟩ ∧
    Scope.countKey (loadSources σ [s1, s2]).2 s1.id = 1 := by
  have hload : loadSources σ [s1, s2]
      = (none, Scope.insert (Scope.insert σ s1.id ⟨s1.id, s1.data⟩)
          s2.id ⟨s2.id, s2.data⟩) := by
    simp [loadSources, Source.load, h1, h2]
  rw [hload]
  refine ⟨rfl, ?_, ?_⟩
  · rw [hid, Scope.lookup_insert]
    simp
  · rw [hid] at hσ ⊢
    rw [Scope.countKey_insert_self, Scope.countKey_insert_self]
    omega

/-- Witness for C7: two declarations of "X" over the empty scope leave
the single binding X bound to the second declaration's data. -/
theorem duplicate_source_last_write_wins_witness :
    (loadSources ([] : Scope ValueSource) [⟨"X", 1, false⟩, ⟨"X", 2, false⟩]).1
      = none ∧
    Scope.lookup
      (loadSources ([] : Scope ValueSource) [⟨"X", 1, false⟩, ⟨"X", 2, false⟩]).2
      "X" = some ⟨"X", 2⟩ ∧
    Scope.countKey
      (loadSources ([] : Scope ValueSource) [⟨"X", 1, false⟩, ⟨"X", 2, false⟩]).2
      "X" = 1 :=
  duplicate_source_last_write_wins [] ⟨"X", 1, false⟩ ⟨"X", 2, false⟩
    rfl rfl rfl (by decide)

/-- C9: the role-indexed accessors return the first Input of the
requested role (firstWithRole: a none result means no Input of that
role exists, the fault is at access time only); Sampler.load succeeds
whenever its input nodes all resolve, placing no requirement on which
roles are present; and any successfully loaded sampler is stored in the
enclosing samplers dict under its id. -/
theorem sampler_role_accessors :
    (∀ s : Sampler, firstWithRole "INPUT" s.inputs s.input ∧
      firstWithRole "OUTPUT" s.inputs s.output ∧
      firstWithRole "INTERPOLATION" s.inputs s.interpolation) ∧
    (∀ (σ : Scope ValueSource) (node : SamplerNode) (is : List Input),
      loadInputs σ node.inputNodes = .ok is →
      Sampler.load σ node = .ok ⟨orEmpty node.id, is⟩) ∧
    (∀ (σ : Scope ValueSource) (pre : List SamplerNode) (n : SamplerNode)
        (post : List SamplerNode) (s : Sampler),
      Sampler.load σ n = .ok s →
      (Scope.lookup (loadSamplers σ (pre ++ n :: post)) s.id).isSome) := by
  refine ⟨?_, ?_, ?_⟩
  · intro s
    exact ⟨find?_firstWithRole "INPUT" s.inputs,
           find?_firstWithRole "OUTPUT" s.inputs,
           find?_firstWithRole "INTERPOLATION" s.inputs⟩
  · intro σ node is his
    unfold Sampler.load
    rw [his]
  · intro σ pre n post s hn
    unfold loadSamplers
    rw [show pre ++ n :: post = (pre ++ [n]) ++ post by simp]
    rw [loadSamplersAux_append]
    refine loadSamplersAux_lookup_isSome σ _ post s.id ?_
    rw [loadSamplersAux_append]
    simp only [loadSamplersAux, hn]
    exact loadSamplersAux_lookup_isSome σ _ [] s.id
      (by rw [Scope.lookup_insert]; simp)

/-- Witness for C9: a sampler whose only input has the unknown role
"FOO" still loads successfully (and lacks all three roles). -/
theorem sampler_role_accessors_witness :
    Sampler.load [("x", ⟨"x", 0⟩)] ⟨some "s1", [⟨some "FOO", some "#x"⟩]⟩
      = .ok ⟨"s1", [⟨"FOO", ⟨"x", 0⟩⟩]⟩ :=
  sampler_role_accessors.2.1 [("x", ⟨"x", 0⟩)]
    ⟨some "s1", [⟨some "FOO", some "#x"⟩]⟩ [⟨"FOO", ⟨"x", 0⟩⟩] rfl

/-- C10: a channel source reference of just the sigil "#" is nonempty,
so it passes the missing-attribute check; stripping the sigil leaves
the empty string as lookup key, and a sampler node without an id
attribute loads with id "" and is stored under that key — such a
channel therefore resolves to the id-less sampler instead of failing.
The last conjunct runs the sampler and channel loops end to end on
concrete nodes. -/
theorem sigil_only_reference_resolves :
    (∀ (σ : Scope ValueSource) (sn : SamplerNode) (s : Sampler),
      sn.id = none → Sampler.load σ sn = .ok s → s.id = "") ∧
    (∀ (sam : Scope Sampler) (cn : ChannelNode) (s : Sampler),
      cn.source = some "#" → blank cn.target = false →
      Scope.lookup sam "" = some s →
      Channel.load sam cn = .ok ⟨s, orEmpty cn.target⟩) ∧
    (loadChannels (loadSamplers [] [⟨none, []⟩]) [⟨some "#", some "t"⟩]
      = [⟨⟨"", []⟩, "t"⟩]) := by
  refine ⟨?_, ?_, rfl⟩
  · intro σ sn s hid hload
    unfold Sampler.load at hload
    cases hl : loadInputs σ sn.inputNodes with
    | error e =>
      rw [hl] at hload
      cases hload
    | ok is =>
      rw [hl] at hload
      rw [← Except.ok.inj hload]
      simp [orEmpty, hid]
  · intro sam cn s hsrc htgt hlook
    have h1 : blank cn.source = false := by rw [hsrc]; rfl
    have h2 : Scope.lookup sam ((orEmpty cn.source).drop 1) = some s := by
      rw [hsrc]
      exact hlook
    unfold Channel.load
    rw [h1, htgt, h2]
    simp

/-- Witness for C10: a channel with source "#" resolves to the sampler
stored under the empty key. -/
theorem sigil_only_reference_resolves_witness :
    Channel.load [("", ⟨"", []⟩)] ⟨some "#", some "t"⟩
      = .ok ⟨⟨"", []⟩, orEmpty (some "t")⟩ :=
  sigil_only_reference_resolves.2.1 [("", ⟨"", []⟩)] ⟨some "#", some "t"⟩
    ⟨"", []⟩ rfl rfl rfl

theorem loadSamplersAux_skip_error (σ : Scope ValueSource)
    (acc : Scope Sampler) (pre : List SamplerNode) (b : SamplerNode)
    (post : List SamplerNode) (e : DaeError)
    (hb : Sampler.load σ b = .error e) :
    loadSamplersAux σ acc (pre ++ b :: post)
      = loadSamplersAux σ acc (pre ++ post) := by
  induction pre generalizing acc with
  | nil => simp [loadSamplersAux, hb]
  | cons n rest ih =>
    cases hn : Sampler.load σ n with
    | ok s => simp [loadSamplersAux, hn, ih]
    | error e' => simp [loadSamplersAux, hn, ih]

theorem loadChildren_append (σ : Scope ValueSource) (l1 l2 : List AnimNode) :
    Animation.loadChildren σ (l1 ++ l2)
      = ((Animation.loadChildren σ l1).1
            ++ (Animation.loadChildren (Animation.loadChildren σ l1).2 l2).1,
         (Animation.loadChildren (Animation.loadChildren σ l1).2 l2).2) := by
  induction l1 generalizing σ with
  | nil => simp [Animation.loadChildren]
  | cons c rest ih =>
    cases hc : (Animation.load σ c).1 with
    | ok child => simp [Animation.loadChildren, hc, ih]
    | error e => simp [Animation.loadChildren, hc, ih]

theorem loadSources_lookup_isSome (σ : Scope ValueSource)
    (srcs : List SourceNode) (k : String)
    (h : (Scope.lookup σ k).isSome) :
    (Scope.lookup (loadSources σ srcs).2 k).isSome := by
  induction srcs generalizing σ with
  | nil => exact h
  | cons s rest ih =>
    cases hs : Source.load s with
    | error e => simpa [loadSources, hs] using h
    | ok ch =>
      simp only [loadSources, hs]
      exact ih _ (Scope.lookup_insert_isSome σ ch.id k ch h)

mutual

theorem anim_load_scope_isSome (σ : Scope ValueSource) (node : AnimNode)
    (k : String) (h : (Scope.lookup σ k).isSome) :
    (Scope.lookup (Animation.load σ node).2 k).isSome := by
  obtain ⟨nid, nname, srcs, smps, chns, childs⟩ := node
  cases hs : (loadSources σ srcs).1 with
  | some e =>
    simp only [Animation.load, hs]
    exact loadSources_lookup_isSome σ srcs k h
  | none =>
    simp only [Animation.load, hs]
    exact loadChildren_scope_isSome (loadSources σ srcs).2 childs k
      (loadSources_lookup_isSome σ srcs k h)

theorem loadChildren_scope_isSome (σ : Scope ValueSource)
    (ns : List AnimNode) (k : String) (h : (Scope.lookup σ k).isSome) :
    (Scope.lookup (Animation.loadChildren σ ns).2 k).isSome := by
  match ns with
  | [] => exact h
  | c :: rest =>
    cases hc : (Animation.load σ c).1 with
    | ok child =>
      simp only [Animation.loadChildren, hc]
      exact loadChildren_scope_isSome (Animation.load σ c).2 rest k
        (anim_load_scope_isSome σ c k h)
    | error e =>
      simp only [Animation.loadChildren, hc]
      exact loadChildren_scope_isSome (Animation.load σ c).2 rest k
        (anim_load_scope_isSome σ c k h)

end

theorem channel_load_ok_source (sam : Scope Sampler) (n : ChannelNode)
    (c : Channel) (h : Channel.load sam n = .ok c) :
    ∃ k, Scope.lookup sam k = some c.source := by
  unfold Channel.load at h
  by_cases hb : (blank n.source || blank n.target) = true
  · rw [if_pos hb] at h
    cases h
  · rw [if_neg hb] at h
    cases hl : Scope.lookup sam ((orEmpty n.source).drop 1) with
    | none =>
      rw [hl] at h
      cases h
    | some s =>
      rw [hl] at h
      refine ⟨(orEmpty n.source).drop 1, ?_⟩
      rw [hl, ← Except.ok.inj h]

theorem mem_loadChannels (sam : Scope Sampler) (ns : List ChannelNode)
    (c : Channel) (h : c ∈ loadChannels sam ns) :
    ∃ n ∈ ns, Channel.load sam n = .ok c := by
  unfold loadChannels at h
  obtain ⟨n, hn, hc⟩ := List.mem_filterMap.mp h
  refine ⟨n, hn, ?_⟩
  cases hcl : Channel.load sam n with
  | error e =>
    rw [hcl] at hc
    cases hc
  | ok c' =>
    rw [hcl] at hc
    simp [Except.toOption] at hc
    rw [hc]

/-- C8: every Channel in a successfully loaded Animation's channel
collection has as its source a Sampler that is also a member of that
same Animation's sampler collection. -/
theorem channel_source_in_samplers (σ : Scope ValueSource) (node : AnimNode)
    (a : Animation) (h : (Animation.load σ node).1 = .ok a) :
    ∀ c ∈ a.channels, c.source ∈ a.samplers := by
  obtain ⟨nid, nname, srcs, smps, chns, childs⟩ := node
  cases hs : (loadSources σ srcs).1 with
  | some e =>
    simp only [Animation.load, hs] at h
    cases h
  | none =>
    simp only [Animation.load, hs] at h
    rw [← Except.ok.inj h]
    intro c hc
    simp only [Animation.channels] at hc
    simp only [Animation.samplers]
    obtain ⟨n, _, hok⟩ := mem_loadChannels _ chns c hc
    obtain ⟨k, hk⟩ := channel_load_ok_source _ n c hok
    exact Scope.lookup_mem_values _ k _ hk

/-- Witness for C8: a one-source, one-sampler, one-channel animation in
which the loaded channel's source sampler is a member of the loaded
animation's samplers list. -/
theorem channel_source_in_samplers_witness :
    (⟨⟨"sam", [⟨"INPUT", ⟨"x", 5⟩⟩]⟩, "tgt"⟩ : Channel).source
      ∈ (Animation.mk "anim" "" [("x", ⟨"x", 5⟩)]
          [⟨"sam", [⟨"INPUT", ⟨"x", 5⟩⟩]⟩]
          [⟨⟨"sam", [⟨"INPUT", ⟨"x", 5⟩⟩]⟩, "tgt"⟩] []).samplers :=
  channel_source_in_samplers []
    (AnimNode.mk (some "anim") none [⟨"x", 5, false⟩]
      [⟨some "sam", [⟨some "INPUT", some "#x"⟩]⟩]
      [⟨some "#sam", some "tgt"⟩] [])
    (Animation.mk "anim" "" [("x", ⟨"x", 5⟩)]
      [⟨"sam", [⟨"INPUT", ⟨"x", 5⟩⟩]⟩]
      [⟨⟨"sam", [⟨"INPUT", ⟨"x", 5⟩⟩]⟩, "tgt"⟩] [])
    rfl ⟨⟨"sam", [⟨"INPUT", ⟨"x", 5⟩⟩]⟩, "tgt"⟩ (by simp [Animation.channels])

/-- C1: per-unit fault isolation under the continuing error policy.
A failing sampler node is skipped with every other sampler loading as
if it were absent; likewise for a failing channel node; a failing
nested animation child is absent from the children list while the
successfully loaded siblings before and after it are retained (the
siblings after it load against the scope as the failed child left it,
since the scope dict is shared); and the enclosing Animation is always
constructed and returned whenever its own source declarations load
(sampler, channel and child faults never abort it). -/
theorem anim_load_fault_isolation :
    (∀ (σ : Scope ValueSource) (pre : List SamplerNode) (b : SamplerNode)
        (post : List SamplerNode) (e : DaeError),
      Sampler.load σ b = .error e →
      loadSamplers σ (pre ++ b :: post) = loadSamplers σ (pre ++ post)) ∧
    (∀ (sam : Scope Sampler) (pre : List ChannelNode) (b : ChannelNode)
        (post : List ChannelNode) (e : DaeError),
      Channel.load sam b = .error e →
      loadChannels sam (pre ++ b :: post) = loadChannels sam (pre ++ post)) ∧
    (∀ (σ : Scope ValueSource) (pre : List AnimNode) (b : AnimNode)
        (post : List AnimNode) (e : DaeError),
      (Animation.load (Animation.loadChildren σ pre).2 b).1 = .error e →
      (Animation.loadChildren σ (pre ++ b :: post)).1 =
        (Animation.loadChildren σ pre).1 ++
        (Animation.loadChildren
          (Animation.load (Animation.loadChildren σ pre).2 b).2 post).1) ∧
    (∀ (σ : Scope ValueSource) (node : AnimNode),
      (loadSources σ node.sources).1 = none →
      ∃ a, (Animation.load σ node).1 = .ok a) := by
  refine ⟨?_, ?_, ?_, ?_⟩
  · intro σ pre b post e hb
    exact loadSamplersAux_skip_error σ [] pre b post e hb
  · intro sam pre b post e hb
    simp [loadChannels, List.filterMap_append, hb, Except.toOption]
  · intro σ pre b post e hb
    rw [loadChildren_append σ pre (b :: post)]
    have hstep : Animation.loadChildren (Animation.loadChildren σ pre).2 (b :: post)
        = Animation.loadChildren
            (Animation.load (Animation.loadChildren σ pre).2 b).2 post := by
      simp only [Animation.loadChildren, hb]
    rw [hstep]
  · intro σ node hsrc
    obtain ⟨nid, nname, srcs, smps, chns, childs⟩ := node
    simp only [AnimNode.sources] at hsrc
    simp only [Animation.load, hsrc]
    exact ⟨_, rfl⟩

/-- Witness for C1: a sampler node whose input lacks its semantic
attribute is skipped, leaving exactly what loading without it gives. -/
theorem anim_load_fault_isolation_witness :
    loadSamplers []
      ([] ++ (⟨some "bad", [⟨none, some "#x"⟩]⟩ : SamplerNode)
        :: [⟨some "good", []⟩])
      = loadSamplers [] ([] ++ [⟨some "good", []⟩]) :=
  anim_load_fault_isolation.1 [] [] ⟨some "bad", [⟨none, some "#x"⟩]⟩
    [⟨some "good", []⟩] .missingAttribute rfl

/-- C2 counterexample: a parent with two children, of which only the
FIRST declares a source "s".  The scope visible at the second child is
the scope object as the first sibling's subtree left it, so it binds
"s" although neither the second child nor any of its strict ancestors
(the parent and the empty root context) declares any source: the
visible scope is not the union over the ancestor chain.  Conjunct 1
exhibits the scope handed to the next sibling after the first child
loads; conjunct 2 observes the leak through the public result: both
loaded children — in particular the second, which declares nothing —
carry "s" in the scope they saw. -/
theorem descendant_scope_sibling_leak :
    (Animation.loadChildren ([] : Scope ValueSource)
        [AnimNode.mk none none [⟨"s", 9, false⟩] [] [] []]).2
      = [("s", ⟨"s", 9⟩)] ∧
    ((Animation.load ([] : Scope ValueSource)
        (AnimNode.mk none none [] [] []
          [AnimNode.mk none none [⟨"s", 9, false⟩] [] [] [],
           AnimNode.mk none none [] [] [] []])).1.map
      (fun a => a.children.map (fun c => Scope.lookup c.sourceById "s")))
      = .ok [some ⟨"s", 9⟩, some ⟨"s", 9⟩] :=
  ⟨rfl, rfl⟩

/-- C2 amended: scope visibility is monotone (a superset), not an
exact union over the ancestor chain: no phase of loading ever removes
a scope key — source loops, whole animation loads and child loops all
preserve every existing binding's presence, and a node's own
successfully loaded source declarations are present from its source
loop onward — but the visible scope can strictly exceed the ancestor
chain's declarations because the shared scope is extended in place by
earlier sibling subtrees. -/
theorem scope_monotonicity :
    (∀ (σ : Scope ValueSource) (srcs : List SourceNode) (k : String),
      (Scope.lookup σ k).isSome →
      (Scope.lookup (loadSources σ srcs).2 k).isSome) ∧
    (∀ (σ : Scope ValueSource) (node : AnimNode) (k : String),
      (Scope.lookup σ k).isSome →
      (Scope.lookup (Animation.load σ node).2 k).isSome) ∧
    (∀ (σ : Scope ValueSource) (ns : List AnimNode) (k : String),
      (Scope.lookup σ k).isSome →
      (Scope.lookup (Animation.loadChildren σ ns).2 k).isSome) ∧
    (∀ (σ : Scope ValueSource) (pre : List SourceNode) (s : SourceNode)
        (post : List SourceNode),
      (∀ t ∈ pre, t.broken = false) → s.broken = false →
      (Scope.lookup (loadSources σ (pre ++ s :: post)).2 s.id).isSome) := by
  refine ⟨loadSources_lookup_isSome, anim_load_scope_isSome,
    loadChildren_scope_isSome, ?_⟩
  intro σ pre s post hpre hs
  induction pre generalizing σ with
  | nil =>
    have hld : Source.load s = .ok ⟨s.id, s.data⟩ := by
      simp [Source.load, hs]
    simp only [List.nil_append, loadSources, hld]
    exact loadSources_lookup_isSome _ post s.id
      (by rw [Scope.lookup_insert]; simp)
  | cons t rest ih =>
    have ht : t.broken = false := hpre t (by simp)
    have hld : Source.load t = .ok ⟨t.id, t.data⟩ := by
      simp [Source.load, ht]
    simp only [List.cons_append, loadSources, hld]
    exact ih _ (fun x hx => hpre x (by simp [hx]))

/-- Witness for the amended C2: a declared, unbroken source is present
in the scope its node's source loop produces. -/
theorem scope_monotonicity_witness :
    (Scope.lookup (loadSources ([] : Scope ValueSource)
        ([] ++ (⟨"a", 1, false⟩ : SourceNode) :: [])).2 "a").isSome :=
  scope_monotonicity.2.2.2 [] [] ⟨"a", 1, false⟩ [] (by simp) rfl

end PyCollada
